import Mathlib

/-!
Verification of the chunked-terrain walking-simulator variants in this
repository (script.js and the four unnamed engine files).  The numeric
computations of the source are embedded over the rationals; the library
trigonometric routines Math.sin and Math.cos are opaque external functions,
so they are modelled as arbitrary function parameters
sin cos : Q -> Q.  Every property proved below holds for all choices of
these functions, hence in particular for the actual libm implementations:
the claims under study (formula shape, tiling of chunk edges, purity,
store behaviour, clamping) depend only on the arguments fed to sin and cos
being identical, never on their values.
-/

namespace Galli

/-- Embedding of the baseline height field, textually identical in
script.js line 67 and 244, part_000 lines 75 and 285, part_001 line 90 and
part_003 line 45:
getHeight = (x, z) => Math.sin(x * 0.04) * Math.cos(z * 0.04) * 8 + Math.sin(x * 0.1) * 2.
The decimal literals 0.04 and 0.1 are embedded as the rationals they denote. -/
def getHeight (sin cos : ℚ → ℚ) (x z : ℚ) : ℚ :=
  sin (x * (4/100)) * cos (z * (4/100)) * 8 + sin (x * (1/10)) * 2

/-- THREE.MathUtils.clamp(value, min, max) = Math.max(min, Math.min(max, value)). -/
def clampQ (v lo hi : ℚ) : ℚ := max lo (min hi v)

/-- The biome height multiplier of part_002 line 56:
hillWeight = clamp(Math.abs(x) / 600, 0.2, 1.5). -/
def hillWeight (x : ℚ) : ℚ := clampQ (|x| / 600) (2/10) (15/10)

/-- Embedding of the biome-weighted height field of part_002 lines 65-71:
base = Math.sin(x*0.02)*Math.cos(z*0.02)*15*heightFactor,
bumps = Math.sin(x*0.1)*Math.cos(z*0.1)*2, result base + bumps. -/
def getHeightBiome (sin cos : ℚ → ℚ) (x z : ℚ) : ℚ :=
  sin (x * (2/100)) * cos (z * (2/100)) * 15 * hillWeight x
    + sin (x * (1/10)) * cos (z * (1/10)) * 2

/-- Modelled from the spec, section 4.1 (refinement reference only): the
reference formula A*sin(worldX*fx)*cos(worldZ*fz) + B*sin(worldX*fd) with
A=8, B=2, fx=fz=0.04, fd=0.1. -/
def specHeight (sin cos : ℚ → ℚ) (x z : ℚ) : ℚ :=
  8 * sin ((4/100) * x) * cos ((4/100) * z) + 2 * sin ((1/10) * x)

/-- Local x coordinate of grid column i of THREE.PlaneGeometry(S, S, n, n):
x = i * (S / n) - S / 2. -/
def localX (S : ℚ) (n i : ℕ) : ℚ := i * (S / n) - S / 2

/-- Local y coordinate of grid row j of THREE.PlaneGeometry(S, S, n, n):
the generator pushes -(j * (S / n) - S / 2) = S / 2 - j * (S / n). -/
def localY (S : ℚ) (n j : ℕ) : ℚ := S / 2 - j * (S / n)

/-- World x coordinate used by every createChunk variant:
v[i] + (cx * chunkSize). -/
def worldX (S lx : ℚ) (cx : ℤ) : ℚ := lx + cx * S

/-- World z coordinate used by every createChunk variant, with the sign
flip on the z axis: -(v[i+1] - (cz * chunkSize)). -/
def worldZ (S ly : ℚ) (cz : ℤ) : ℚ := -(ly - cz * S)

/-- The elevation sample a chunk at coordinate (cx, cz) computes for grid
point (i, j), exactly as in the createChunk vertex loop of every baseline
variant. -/
def chunkSample (sin cos : ℚ → ℚ) (S : ℚ) (n : ℕ) (cx cz : ℤ) (i j : ℕ) : ℚ :=
  getHeight sin cos (worldX S (localX S n i) cx) (worldZ S (localY S n j) cz)

/-- C4: in every baseline (non-biome) variant the height function equals
the reference formula 8*sin(0.04*x)*cos(0.04*z) + 2*sin(0.1*x) of the spec
(A=8, B=2, fx=fz=0.04, fd=0.1), for all world coordinates and every
interpretation of the trigonometric library functions. -/
theorem C4_baseline_height_formula (sin cos : ℚ → ℚ) (x z : ℚ) :
    getHeight sin cos x z = specHeight sin cos x z := by
  unfold getHeight specHeight
  rw [mul_comm x ((4:ℚ)/100), mul_comm z ((4:ℚ)/100), mul_comm x ((1:ℚ)/10)]
  ring

/-- C5: the height function of every variant, including the biome-weighted
one of part_002, is a pure function of its two arguments: two evaluations
at the same world coordinates return the identical value, and equal
arguments give equal results. -/
theorem C5_height_deterministic (sin cos : ℚ → ℚ) (x z x' z' : ℚ)
    (hx : x = x') (hz : z = z') :
    getHeight sin cos x z = getHeight sin cos x' z'
      ∧ getHeightBiome sin cos x z = getHeightBiome sin cos x' z' := by
  subst hx; subst hz; exact ⟨rfl, rfl⟩

/-- C5 witness at concrete input. -/
theorem C5_height_deterministic_witness :
    getHeight id id 3 7 = getHeight id id 3 7
      ∧ getHeightBiome id id 3 7 = getHeightBiome id id 3 7 :=
  C5_height_deterministic id id 3 7 3 7 rfl rfl

/-- C1: chunk edges tile seamlessly.  For adjacent chunks, the shared-edge
grid sample is mapped by both local-to-world transforms
(worldX = localX + cx*S, worldZ = -(localY - cz*S)) to the same world
coordinates, hence the elevation computed through either transform is
identical: column n of chunk (cx, cz) agrees with column 0 of chunk
(cx+1, cz) on every row j, and row n of chunk (cx, cz) agrees with row 0
of chunk (cx, cz+1) on every column i. -/
theorem C1_edge_tiling (sin cos : ℚ → ℚ) (S : ℚ) (n : ℕ) (hn : 0 < n)
    (cx cz : ℤ) (i j : ℕ) :
    worldX S (localX S n n) cx = worldX S (localX S n 0) (cx + 1)
      ∧ worldZ S (localY S n n) cz = worldZ S (localY S n 0) (cz + 1)
      ∧ chunkSample sin cos S n cx cz n j = chunkSample sin cos S n (cx + 1) cz 0 j
      ∧ chunkSample sin cos S n cx cz i n = chunkSample sin cos S n cx (cz + 1) i 0 := by
  have hn' : (n : ℚ) ≠ 0 := Nat.cast_ne_zero.mpr hn.ne'
  have hx : worldX S (localX S n n) cx = worldX S (localX S n 0) (cx + 1) := by
    unfold worldX localX
    push_cast
    field_simp
    ring
  have hz : worldZ S (localY S n n) cz = worldZ S (localY S n 0) (cz + 1) := by
    unfold worldZ localY
    push_cast
    field_simp
    ring
  refine ⟨hx, hz, ?_, ?_⟩
  · unfold chunkSample
    rw [hx]
  · unfold chunkSample
    rw [hz]

/-- C1 witness at concrete input (S = 100, n = 20, the grid of part_000). -/
theorem C1_edge_tiling_witness :
    chunkSample id id 100 20 0 0 20 0 = chunkSample id id 100 20 1 0 0 0 :=
  (C1_edge_tiling id id 100 20 (by norm_num) 0 0 0 0).2.2.1

/-! ## Chunk store

Every variant keeps const chunks = new Map() keyed by the template string
cx,cz; two coordinates collide exactly when both components match, so the
key space is modelled directly as pairs of integers.  The stored value is
the generated chunk, modelled by its surface sample list. -/

abbrev Coord := ℤ × ℤ

abbrev Chunk := List ℚ

abbrev ChunkStore := List (Coord × Chunk)

/-- The keys currently present in the store (chunks.keys()). -/
def keys (s : ChunkStore) : List Coord := s.map Prod.fst

/-- chunks.get / chunks.has: first entry whose key equals c. -/
def findChunk (c : Coord) : ChunkStore → Option Chunk
  | [] => none
  | e :: s => if e.1 = c then some e.2 else findChunk c s

/-- The surface grid a single createChunk call produces: all
(n+1) x (n+1) elevation samples of the vertex loop. -/
def buildChunk (sin cos : ℚ → ℚ) (S : ℚ) (n : ℕ) (cx cz : ℤ) : Chunk :=
  (List.range (n + 1)).flatMap fun j =>
    (List.range (n + 1)).map fun i => chunkSample sin cos S n cx cz i j

/-- Embedding of createChunk (script.js lines 69-83 and 246-287, part_000
lines 77-91 and 287-302, part_001 lines 92-115, part_002 lines 95-125,
part_003 lines 47-61): if the key is already present return leaving the
store untouched, otherwise generate the chunk and insert it. -/
def createChunk (sin cos : ℚ → ℚ) (S : ℚ) (n : ℕ) (c : Coord) (s : ChunkStore) :
    ChunkStore :=
  if (findChunk c s).isSome then s else (c, buildChunk sin cos S n c.1 c.2) :: s

/-- JavaScript Math.round: floor(x + 1/2), so 2.5 rounds up to 3. -/
def jsRound (q : ℚ) : ℤ := ⌊q + 1/2⌋

/-- The center chunk coordinate derived from the viewpoint each frame:
(Math.round(position.x / chunkSize), Math.round(position.z / chunkSize)). -/
def centerChunk (S px pz : ℚ) : Coord := (jsRound (px / S), jsRound (pz / S))

/-- The coordinates visited by the nested loop
for x in [cx-d, cx+d], for z in [cz-d, cz+d], in loop order. -/
def tickCoords (cx cz : ℤ) (d : ℕ) : List Coord :=
  (List.range (2 * d + 1)).flatMap fun i : ℕ =>
    (List.range (2 * d + 1)).map fun j : ℕ => (cx - d + (i : ℤ), cz - d + (j : ℤ))

/-- One frame of the chunk-management loop of animate: derive the center
chunk from the viewpoint and call createChunk on every coordinate within
Chebyshev distance d. -/
def tick (sin cos : ℚ → ℚ) (S : ℚ) (n d : ℕ) (px pz : ℚ) (s : ChunkStore) :
    ChunkStore :=
  (tickCoords (centerChunk S px pz).1 (centerChunk S px pz).2 d).foldl
    (fun st c => createChunk sin cos S n c st) s

/-- A whole run: the animate loop executed once per frame over a list of
viewpoint positions. -/
def run (sin cos : ℚ → ℚ) (S : ℚ) (n d : ℕ) (ps : List (ℚ × ℚ)) (s : ChunkStore) :
    ChunkStore :=
  ps.foldl (fun st p => tick sin cos S n d p.1 p.2 st) s

theorem findChunk_isSome_iff (c : Coord) (s : ChunkStore) :
    (findChunk c s).isSome = true ↔ c ∈ keys s := by
  induction s with
  | nil => simp [findChunk, keys]
  | cons e t ih =>
    by_cases h : e.1 = c
    · simp [findChunk, h, keys]
    · simp only [findChunk, if_neg h, keys, List.map_cons, List.mem_cons]
      rw [ih]
      constructor
      · exact Or.inr
      · rintro (hc | hc)
        · exact absurd hc.symm h
        · exact hc

theorem keys_createChunk (sin cos : ℚ → ℚ) (S : ℚ) (n : ℕ) (c c' : Coord)
    (s : ChunkStore) :
    c' ∈ keys (createChunk sin cos S n c s) ↔ c' ∈ keys s ∨ c' = c := by
  unfold createChunk
  by_cases h : (findChunk c s).isSome
  · rw [if_pos h]
    constructor
    · exact Or.inl
    · rintro (hc | rfl)
      · exact hc
      · exact (findChunk_isSome_iff c' s).mp h
  · rw [if_neg h]
    simp [keys, or_comm]

theorem keys_foldl_createChunk (sin cos : ℚ → ℚ) (S : ℚ) (n : ℕ)
    (l : List Coord) (s : ChunkStore) (c' : Coord) :
    c' ∈ keys (l.foldl (fun st c => createChunk sin cos S n c st) s) ↔
      c' ∈ keys s ∨ c' ∈ l := by
  induction l generalizing s with
  | nil => simp
  | cons a t ih =>
    simp only [List.foldl_cons, List.mem_cons]
    rw [ih, keys_createChunk]
    tauto

theorem mem_tickCoords (cx cz : ℤ) (d : ℕ) (a b : ℤ) :
    (a, b) ∈ tickCoords cx cz d ↔
      cx - d ≤ a ∧ a ≤ cx + d ∧ cz - d ≤ b ∧ b ≤ cz + d := by
  unfold tickCoords
  constructor
  · intro h
    obtain ⟨i, hi, hmem⟩ := List.mem_flatMap.mp h
    obtain ⟨j, hj, heq⟩ := List.mem_map.mp hmem
    rw [List.mem_range] at hi hj
    have ha : cx - (d : ℤ) + i = a := congrArg Prod.fst heq
    have hb : cz - (d : ℤ) + j = b := congrArg Prod.snd heq
    omega
  · rintro ⟨h1, h2, h3, h4⟩
    refine List.mem_flatMap.mpr ⟨(a - (cx - d)).toNat, ?_,
      List.mem_map.mpr ⟨(b - (cz - d)).toNat, ?_, ?_⟩⟩
    · rw [List.mem_range]; omega
    · rw [List.mem_range]; omega
    · simp only [Prod.mk.injEq]
      constructor <;> omega

theorem keys_tick_empty_toFinset (sin cos : ℚ → ℚ) (S : ℚ) (n d : ℕ) (px pz : ℚ) :
    (keys (tick sin cos S n d px pz [])).toFinset
      = Finset.Icc ((centerChunk S px pz).1 - d) ((centerChunk S px pz).1 + d)
          ×ˢ Finset.Icc ((centerChunk S px pz).2 - d) ((centerChunk S px pz).2 + d) := by
  ext c
  obtain ⟨a, b⟩ := c
  rw [List.mem_toFinset]
  unfold tick
  rw [keys_foldl_createChunk, mem_tickCoords, Finset.mem_product, Finset.mem_Icc,
    Finset.mem_Icc]
  simp only [keys, List.map_nil, List.not_mem_nil, false_or]
  tauto

theorem keys_tick_mono (sin cos : ℚ → ℚ) (S : ℚ) (n d : ℕ) (px pz : ℚ)
    (s : ChunkStore) (c : Coord) (hc : c ∈ keys s) :
    c ∈ keys (tick sin cos S n d px pz s) := by
  unfold tick
  rw [keys_foldl_createChunk]
  exact Or.inl hc

theorem keys_run_mono (sin cos : ℚ → ℚ) (S : ℚ) (n d : ℕ) (ps : List (ℚ × ℚ))
    (s : ChunkStore) (c : Coord) (hc : c ∈ keys s) :
    c ∈ keys (run sin cos S n d ps s) := by
  induction ps generalizing s with
  | nil => exact hc
  | cons p t ih =>
    exact ih (tick sin cos S n d p.1 p.2 s) (keys_tick_mono sin cos S n d p.1 p.2 s c hc)

/-- C2: coverage of the world streamer.  After one tick at viewpoint
(px, pz) with render distance d, every coordinate within Chebyshev
distance d of the center (round(px/S), round(pz/S)) is in the store;
starting from the empty store exactly those coordinates are present, a
square of (2d+1)^2 chunks.  Concretely, a viewpoint of (250, 0) with
S = 100 gives center chunk (3, 0) (Math.round(2.5) = 3), and a viewpoint
of (0, 0) with d = 2 gives exactly the coordinates with both components
in [-2, 2]. -/
theorem C2_streamer_coverage (sin cos : ℚ → ℚ) (S : ℚ) (n d : ℕ) (px pz : ℚ)
    (s : ChunkStore) :
    (∀ c : Coord, (c.1 - (centerChunk S px pz).1).natAbs ≤ d →
        (c.2 - (centerChunk S px pz).2).natAbs ≤ d →
        c ∈ keys (tick sin cos S n d px pz s))
    ∧ (keys (tick sin cos S n d px pz [])).toFinset
        = Finset.Icc ((centerChunk S px pz).1 - d) ((centerChunk S px pz).1 + d)
            ×ˢ Finset.Icc ((centerChunk S px pz).2 - d) ((centerChunk S px pz).2 + d)
    ∧ (keys (tick sin cos S n d px pz [])).toFinset.card = (2 * d + 1) ^ 2
    ∧ centerChunk 100 250 0 = (3, 0)
    ∧ (keys (tick sin cos 100 n 2 0 0 [])).toFinset
        = Finset.Icc (-2 : ℤ) 2 ×ˢ Finset.Icc (-2 : ℤ) 2 := by
  refine ⟨?_, keys_tick_empty_toFinset sin cos S n d px pz, ?_,
    by simp only [centerChunk]; norm_num [jsRound, Prod.ext_iff], ?_⟩
  · intro c h1 h2
    obtain ⟨a, b⟩ := c
    unfold tick
    rw [keys_foldl_createChunk, mem_tickCoords]
    right
    simp only at h1 h2
    omega
  · rw [keys_tick_empty_toFinset, Finset.card_product, Int.card_Icc, Int.card_Icc]
    have e1 : ((centerChunk S px pz).1 + d + 1 - ((centerChunk S px pz).1 - d)).toNat
        = 2 * d + 1 := by omega
    have e2 : ((centerChunk S px pz).2 + d + 1 - ((centerChunk S px pz).2 - d)).toNat
        = 2 * d + 1 := by omega
    rw [e1, e2]
    ring
  · rw [keys_tick_empty_toFinset]
    have hc : centerChunk 100 0 0 = ((0 : ℤ), (0 : ℤ)) := by
      simp only [centerChunk]
      norm_num [jsRound, Prod.ext_iff]
    rw [hc]
    norm_num

/-- C2 witness at concrete input. -/
theorem C2_streamer_coverage_witness :
    ((0 : ℤ), (0 : ℤ)) ∈ keys (tick id id 100 5 1 0 0 []) :=
  (C2_streamer_coverage id id 100 5 1 0 0 []).1 (0, 0)
    (by norm_num [centerChunk, jsRound]) (by norm_num [centerChunk, jsRound])

/-- C3: chunk generation is create-if-absent and idempotent.  A second
createChunk call with the same coordinate leaves the store unchanged and
never regenerates; when the coordinate is absent exactly one chunk, the
generated one, is inserted and later lookups retain it; distinctness of
stored coordinates is preserved, so at most one chunk exists per
coordinate at any time. -/
theorem createChunk_present (sin cos : ℚ → ℚ) (S : ℚ) (n : ℕ) (c : Coord)
    (s : ChunkStore) (h : (findChunk c s).isSome = true) :
    createChunk sin cos S n c s = s := by
  unfold createChunk
  rw [if_pos h]

theorem findChunk_createChunk_absent (sin cos : ℚ → ℚ) (S : ℚ) (n : ℕ) (c : Coord)
    (s : ChunkStore) (h : findChunk c s = none) :
    findChunk c (createChunk sin cos S n c s) = some (buildChunk sin cos S n c.1 c.2) := by
  simp [createChunk, findChunk, h]

theorem C3_create_if_absent (sin cos : ℚ → ℚ) (S : ℚ) (n : ℕ) (c : Coord)
    (s : ChunkStore) :
    createChunk sin cos S n c (createChunk sin cos S n c s) = createChunk sin cos S n c s
    ∧ ((findChunk c s).isSome = true → createChunk sin cos S n c s = s)
    ∧ (findChunk c s = none →
        findChunk c (createChunk sin cos S n c s) = some (buildChunk sin cos S n c.1 c.2))
    ∧ ((keys s).Nodup → (keys (createChunk sin cos S n c s)).Nodup) := by
  refine ⟨?_, createChunk_present sin cos S n c s,
    findChunk_createChunk_absent sin cos S n c s, ?_⟩
  · rcases h : findChunk c s with _ | ch
    · exact createChunk_present sin cos S n c _
        (by rw [findChunk_createChunk_absent sin cos S n c s h]; rfl)
    · have e := createChunk_present sin cos S n c s (by rw [h]; rfl)
      rw [e]
      exact e
  · intro hnd
    by_cases h : (findChunk c s).isSome = true
    · rw [createChunk_present sin cos S n c s h]
      exact hnd
    · unfold createChunk
      rw [if_neg h]
      refine List.Nodup.cons ?_ hnd
      intro hmem
      exact h ((findChunk_isSome_iff c s).mpr hmem)

/-- C3 witness at concrete input. -/
theorem C3_create_if_absent_witness :
    findChunk ((0 : ℤ), (0 : ℤ)) (createChunk id id 100 20 (0, 0) [])
      = some (buildChunk id id 100 20 0 0) :=
  (C3_create_if_absent id id 100 20 (0, 0) []).2.2.1 rfl

/-- C6: no eviction anywhere.  The only store operation any variant
performs is createChunk (chunks.set inside createChunk); a coordinate once
present stays present after any further createChunk, any further tick and
any whole run of the frame loop. -/
theorem C6_store_only_grows (sin cos : ℚ → ℚ) (S : ℚ) (n d : ℕ) (c c0 : Coord)
    (px pz : ℚ) (ps : List (ℚ × ℚ)) (s : ChunkStore) (hc : c ∈ keys s) :
    c ∈ keys (createChunk sin cos S n c0 s)
    ∧ c ∈ keys (tick sin cos S n d px pz s)
    ∧ c ∈ keys (run sin cos S n d ps s) :=
  ⟨(keys_createChunk sin cos S n c0 c s).mpr (Or.inl hc),
    keys_tick_mono sin cos S n d px pz s c hc,
    keys_run_mono sin cos S n d ps s c hc⟩

/-- C6 witness at concrete input. -/
theorem C6_store_only_grows_witness :
    ((0 : ℤ), (0 : ℤ)) ∈ keys (run id id 100 1 1 [(0, 0)] [((0, 0), [])]) :=
  (C6_store_only_grows id id 100 1 1 (0, 0) (1, 1) 0 0 [(0, 0)] [((0, 0), [])]
    (by decide)).2.2

/-! ## Decoration placement -/

/-- Water level of the water variant, script.js line 229. -/
def waterLevel : ℚ := -3/2

/-- The local offset a decoration draw produces:
(Math.random() - 0.5) * chunkSize, with the draw r ranging over [0, 1). -/
def jsOffset (r S : ℚ) : ℚ := (r - 1/2) * S

/-- The tree record the water variant of script.js (lines 271-277) builds
from one pair of random draws: local offsets tx, tz and the surface height
ty sampled at the absolute world coordinates (tx + x*S, tz + z*S). -/
def treeAt (sin cos : ℚ → ℚ) (S : ℚ) (x z : ℤ) (d : ℚ × ℚ) : ℚ × ℚ × ℚ :=
  (jsOffset d.1 S,
    getHeight sin cos (jsOffset d.1 S + x * S) (jsOffset d.2 S + z * S),
    jsOffset d.2 S)

/-- Tree spawning of the water variant (script.js lines 270-282): the tree
is added only when the sampled ground height exceeds waterLevel + 0.5. -/
def placeTrees (sin cos : ℚ → ℚ) (S : ℚ) (x z : ℤ) (draws : List (ℚ × ℚ)) :
    List (ℚ × ℚ × ℚ) :=
  draws.filterMap fun d =>
    if waterLevel + 1/2 < (treeAt sin cos S x z d).2.1 then some (treeAt sin cos S x z d)
    else none

/-- Tree spawning of part_002 (lines 113-120): every draw places a tree,
snapped to the biome height field at its absolute world coordinates. -/
def placeTreesBiome (sin cos : ℚ → ℚ) (S : ℚ) (cx cz : ℤ) (draws : List (ℚ × ℚ)) :
    List (ℚ × ℚ × ℚ) :=
  draws.map fun d =>
    (jsOffset d.1 S,
      getHeightBiome sin cos (jsOffset d.1 S + cx * S) (jsOffset d.2 S + cz * S),
      jsOffset d.2 S)

/-- C7: in the water variant, for every random draw a tree is added iff the
surface height sampled at its absolute world coordinates exceeds
waterLevel + 0.5; consequently no placed tree has its ground sample at or
below water level. -/
theorem C7_trees_above_water (sin cos : ℚ → ℚ) (S : ℚ) (x z : ℤ)
    (draws : List (ℚ × ℚ)) :
    (∀ d ∈ draws,
        (treeAt sin cos S x z d ∈ placeTrees sin cos S x z draws ↔
          waterLevel + 1/2 <
            getHeight sin cos (jsOffset d.1 S + x * S) (jsOffset d.2 S + z * S)))
    ∧ ∀ t ∈ placeTrees sin cos S x z draws, waterLevel < t.2.1 := by
  constructor
  · intro d hd
    constructor
    · intro hmem
      obtain ⟨d', hd', he⟩ := List.mem_filterMap.mp hmem
      by_cases hc : waterLevel + 1/2 < (treeAt sin cos S x z d').2.1
      · rw [if_pos hc] at he
        have he2 : (treeAt sin cos S x z d').2.1 = (treeAt sin cos S x z d).2.1 :=
          congrArg (fun t : ℚ × ℚ × ℚ => t.2.1) (Option.some.inj he)
        rw [he2] at hc
        exact hc
      · rw [if_neg hc] at he
        cases he
    · intro hcond
      refine List.mem_filterMap.mpr ⟨d, hd, ?_⟩
      rw [if_pos (show waterLevel + 1/2 < (treeAt sin cos S x z d).2.1 from hcond)]
  · intro t ht
    obtain ⟨d', hd', he⟩ := List.mem_filterMap.mp ht
    by_cases hc : waterLevel + 1/2 < (treeAt sin cos S x z d').2.1
    · rw [if_pos hc] at he
      obtain rfl := Option.some.inj he
      linarith
    · rw [if_neg hc] at he
      cases he

/-- C7 witness at concrete input. -/
theorem C7_trees_above_water_witness :
    treeAt (fun _ => 1) (fun _ => 1) 100 0 0 (1/2, 1/2)
      ∈ placeTrees (fun _ => 1) (fun _ => 1) 100 0 0 [(1/2, 1/2)] :=
  ((C7_trees_above_water (fun _ => 1) (fun _ => 1) 100 0 0 [(1/2, 1/2)]).1
    (1/2, 1/2) (List.mem_singleton.mpr rfl)).mpr
    (by norm_num [waterLevel, getHeight, jsOffset])

/-- C8 counterexample: Math.random() ranges over [0, 1), so the draw r = 0
is possible and places a decoration at local offset (0 - 0.5)*S = -S/2
exactly; with S = 100 the placed offset is -50, which does not lie in the
open interval (-S/2, S/2) the claim asserts the offsets are drawn from. -/
theorem C8_footprint_counterexample :
    (placeTreesBiome id id 100 0 0 [(0, 0)]).map (fun t => t.1) = [(-50 : ℚ)]
      ∧ ¬ (-(100 : ℚ) / 2 < -50 ∧ (-50 : ℚ) < 100 / 2) := by
  constructor
  · norm_num [placeTreesBiome, jsOffset]
  · norm_num

/-- C8 amended: in both decoration-placing variants, each placed
decoration has local offsets in the half-open square [-S/2, S/2) times
[-S/2, S/2) (hence within the closed S x S chunk footprint), and its
vertical position equals the height function of the variant evaluated at
the decoration absolute world coordinates, whenever the random draws come
from the Math.random() range [0, 1). -/
theorem C8_decorations_on_surface (sin cos : ℚ → ℚ) (S : ℚ) (hS : 0 < S)
    (cx cz : ℤ) (draws : List (ℚ × ℚ))
    (hdraws : ∀ d ∈ draws, 0 ≤ d.1 ∧ d.1 < 1 ∧ 0 ≤ d.2 ∧ d.2 < 1) :
    (∀ t ∈ placeTreesBiome sin cos S cx cz draws,
        (-(S/2) ≤ t.1 ∧ t.1 < S/2 ∧ -(S/2) ≤ t.2.2 ∧ t.2.2 < S/2)
        ∧ t.2.1 = getHeightBiome sin cos (t.1 + cx * S) (t.2.2 + cz * S))
    ∧ (∀ t ∈ placeTrees sin cos S cx cz draws,
        (-(S/2) ≤ t.1 ∧ t.1 < S/2 ∧ -(S/2) ≤ t.2.2 ∧ t.2.2 < S/2)
        ∧ t.2.1 = getHeight sin cos (t.1 + cx * S) (t.2.2 + cz * S)) := by
  have hoff : ∀ r : ℚ, 0 ≤ r → r < 1 → -(S/2) ≤ jsOffset r S ∧ jsOffset r S < S/2 := by
    intro r h0 h1
    unfold jsOffset
    constructor <;> nlinarith
  constructor
  · intro t ht
    obtain ⟨d, hd, rfl⟩ := List.mem_map.mp ht
    obtain ⟨h1, h2, h3, h4⟩ := hdraws d hd
    obtain ⟨ha, hb⟩ := hoff d.1 h1 h2
    obtain ⟨hc, hd'⟩ := hoff d.2 h3 h4
    exact ⟨⟨ha, hb, hc, hd'⟩, rfl⟩
  · intro t ht
    obtain ⟨d, hd, he⟩ := List.mem_filterMap.mp ht
    by_cases hcnd : waterLevel + 1/2 < (treeAt sin cos S cx cz d).2.1
    · rw [if_pos hcnd] at he
      obtain rfl := Option.some.inj he
      obtain ⟨h1, h2, h3, h4⟩ := hdraws d hd
      obtain ⟨ha, hb⟩ := hoff d.1 h1 h2
      obtain ⟨hc, hd'⟩ := hoff d.2 h3 h4
      exact ⟨⟨ha, hb, hc, hd'⟩, rfl⟩
    · rw [if_neg hcnd] at he
      cases he

/-- C8 amended witness at concrete input. -/
theorem C8_decorations_on_surface_witness :
    (-(100/2 : ℚ) ≤ jsOffset (1/2) 100 ∧ jsOffset (1/2) 100 < 100/2
        ∧ -(100/2 : ℚ) ≤ jsOffset (1/2) 100 ∧ jsOffset (1/2) 100 < 100/2)
      ∧ getHeightBiome id id (jsOffset (1/2) 100 + ((0 : ℤ) : ℚ) * 100)
            (jsOffset (1/2) 100 + ((0 : ℤ) : ℚ) * 100)
          = getHeightBiome id id (jsOffset (1/2) 100 + ((0 : ℤ) : ℚ) * 100)
            (jsOffset (1/2) 100 + ((0 : ℤ) : ℚ) * 100) :=
  (C8_decorations_on_surface id id 100 (by norm_num) 0 0 [(1/2, 1/2)]
    (by intro d hd; rw [List.mem_singleton] at hd; subst hd; norm_num)).1
    (jsOffset (1/2) 100,
      getHeightBiome id id (jsOffset (1/2) 100 + ((0 : ℤ) : ℚ) * 100)
        (jsOffset (1/2) 100 + ((0 : ℤ) : ℚ) * 100),
      jsOffset (1/2) 100)
    (List.mem_singleton.mpr rfl)

/-! ## Battery and flashlight -/

/-- Per-frame battery update shared by the water variant of script.js
(lines 324-326) and updateSystems of part_000 (lines 262-268): drain 0.08
while the flashlight is visible, solar recharge 0.04 when it is daytime
and the battery is below 100, then clamp with
Math.max(0, Math.min(100, batteryLevel)). -/
def batteryStepClamped (visible isDay : Bool) (b : ℚ) : ℚ :=
  max 0 (min 100 (if visible = true then b - 8/100
    else if isDay = true ∧ b < 100 then b + 4/100 else b))

/-- updateSystems of part_000 (lines 251-276), battery and flashlight
part: after clamping, a battery at or below zero forces the flashlight
off. -/
def updateSystems (visible isDay : Bool) (b : ℚ) : ℚ × Bool :=
  (batteryStepClamped visible isDay b,
    if batteryStepClamped visible isDay b ≤ 0 then false else visible)

/-- Per-frame battery update of part_002 (lines 167-168): drain 0.07,
recharge 0.05, and no clamping at all. -/
def batteryStepBiome (visible isDay : Bool) (b : ℚ) : ℚ :=
  if visible = true then b - 7/100
  else if isDay = true ∧ b < 100 then b + 1/20 else b

/-- The f-key handler shared by part_000 line 308, part_002 line 145 and
script.js line 297: the flashlight toggles only when the battery is
strictly positive. -/
def toggleFlashlight (b : ℚ) (visible : Bool) : Bool :=
  if 0 < b then !visible else visible

/-- C9 counterexample: the part_002 variant applies no clamp to its
battery; one frame of drain at battery 0.01 leaves the battery negative,
and one frame of daytime recharge at battery 99.99 pushes it above 100. -/
theorem C9_clamp_counterexample :
    batteryStepBiome true true (1/100) < 0
      ∧ 100 < batteryStepBiome false true (9999/100) := by
  constructor <;> norm_num [batteryStepBiome]

/-- C9 amended: in the two battery variants that clamp, the water variant
of script.js and the part_000 engine, the battery lies in [0, 100] after
every per-frame update, whatever the previous battery value; the part_002
variant performs no clamping, see the counterexample. -/
theorem C9_battery_clamped (visible isDay : Bool) (b : ℚ) :
    (0 ≤ batteryStepClamped visible isDay b ∧ batteryStepClamped visible isDay b ≤ 100)
    ∧ (0 ≤ (updateSystems visible isDay b).1 ∧ (updateSystems visible isDay b).1 ≤ 100) := by
  unfold updateSystems batteryStepClamped
  exact ⟨⟨le_max_left 0 _, max_le (by norm_num) (min_le_left 100 _)⟩,
    ⟨le_max_left 0 _, max_le (by norm_num) (min_le_left 100 _)⟩⟩

/-- C10: in the part_000 engine the flashlight can never be lit with an
empty battery: after updateSystems, visibility implies a strictly positive
battery, and the f toggle leaves visibility unchanged when the battery is
not positive. -/
theorem C10_flashlight_needs_battery (visible isDay : Bool) (b : ℚ) :
    ((updateSystems visible isDay b).2 = true → 0 < (updateSystems visible isDay b).1)
    ∧ ∀ v : Bool, b ≤ 0 → toggleFlashlight b v = v := by
  constructor
  · intro h
    by_cases hb : batteryStepClamped visible isDay b ≤ 0
    · exfalso
      have h2 : (updateSystems visible isDay b).2 = false := by
        unfold updateSystems
        simp [hb]
      rw [h2] at h
      cases h
    · push_neg at hb
      exact hb
  · intro v hv
    unfold toggleFlashlight
    rw [if_neg (by linarith)]

/-- C10 witness at concrete input. -/
theorem C10_flashlight_needs_battery_witness :
    0 < (updateSystems true true 50).1 :=
  (C10_flashlight_needs_battery true true 50).1
    (by norm_num [updateSystems, batteryStepClamped])

end Galli
